import Mathlib

/-!
Verification development for the persistence / session layer of the
ai-learning-platform repository.

The JavaScript source is shallowly embedded:
* `localStorage` is modelled by the `Store` record: one optional field per
  storage key (`none` = the key was never written, `some v` = the key holds
  the JSON serialization of `v`; JSON round-trips are faithful for the
  values the code writes, and corrupt-JSON reads are not modelled).
* ISO-8601 timestamp strings are modelled as naturals (milliseconds since
  the epoch); `new Date(x) - new Date(y)` compares them identically, and an
  ISO string is never falsy, so `x || now` is `Option.getD`.
* JavaScript objects used as string-keyed maps (`lib` projects, `docs`,
  `chats`, `files`) are modelled as association lists in key-insertion
  order: updating an existing key keeps its position, a new key is appended,
  matching JS property-order semantics.
* Each wall-clock read (`new Date()` / `Date.now()`) during one synchronous
  call is passed in as an explicit `now : Nat` argument, and each
  `generateId()` result as an explicit fresh-id argument.
-/

namespace AILearn

/-- JS `a || b` where `a` is an optional string: `undefined`/`null` and the
empty string are falsy. -/
def strOr (a : Option String) (b : String) : String :=
  match a with
  | some s => if s = "" then b else s
  | none => b

/-- JS `a || b` where both sides are optional strings (`b` itself may be a
further `x || null` chain). -/
def strOrOpt (a b : Option String) : Option String :=
  match a with
  | some s => if s = "" then b else some s
  | none => b

/-- JS object indexing `m[k]`: the value stored at string key `k`, if any. -/
def objGet {α : Type} (m : List (String × α)) (k : String) : Option α :=
  (m.find? (fun e => e.1 = k)).map (fun e => e.2)

/-- JS object assignment `m[k] = v`: replaces the value at an existing key in
place, otherwise appends the new key. -/
def objSet {α : Type} (m : List (String × α)) (k : String) (v : α) :
    List (String × α) :=
  match m with
  | [] => [(k, v)]
  | e :: rest => if e.1 = k then (k, v) :: rest else e :: objSet rest k v

/-- JS in-place mutation of the value stored at key `k` (e.g.
`root[projectId].docs[id] = ...`). -/
def objModify {α : Type} (m : List (String × α)) (k : String) (f : α → α) :
    List (String × α) :=
  m.map (fun e => if e.1 = k then (e.1, f e.2) else e)

/-- JS `delete m[k]`. -/
def objDel {α : Type} (m : List (String × α)) (k : String) :
    List (String × α) :=
  m.filter (fun e => ¬ e.1 = k)

/-- JS object keys are strings: an `undefined` id used as an index becomes
the literal key `"undefined"`. -/
def jsKey (o : Option String) : String := o.getD "undefined"

/-- One chat message (`{id, type, content, timestamp, selectedText?}`);
`selectedText` is never read by the persistence layer and is omitted. -/
structure Message where
  id : String
  type : String
  content : String
  timestamp : Nat
deriving DecidableEq

/-- One chat session as persisted in the `chats` collection. `id` and
`createdAt` may be absent on an in-memory object (the store-level save stamps
them); every session the session directory handles carries an `updatedAt`
(the save path always stamps it, and the selection logic reads it). -/
structure ChatSession where
  id : Option String
  title : String
  docId : Option String
  messages : List Message
  createdAt : Option Nat
  updatedAt : Nat
deriving DecidableEq

/-- One document as persisted in the `documents` collection. `id`,
`createdAt` and `updatedAt` may be absent on the object a caller passes to
`saveDocument` (the save stamps them). Remaining document fields
(`type`, `sourceFiles`, ...) are carried opaquely by the spread copies and
never read by the persistence layer, so they are not modelled. -/
structure Document where
  id : Option String
  title : String
  content : String
  createdAt : Option Nat
  updatedAt : Option Nat
deriving DecidableEq

/-- One uploaded file as persisted in the `uploadedFiles` collection. -/
structure UploadedFile where
  id : Option String
  name : String
  content : String
  uploadedAt : Option Nat
  updatedAt : Option Nat
deriving DecidableEq

/-- The settings object. -/
structure Settings where
  theme : String
  language : String
  autoSave : Bool
  exportFormat : String
deriving DecidableEq

/-- Mirror entry written by `libSaveDoc`: `{ ...doc, contentType, fileName }`. -/
structure DocMirror where
  doc : Document
  contentType : String
  fileName : String
deriving DecidableEq

/-- Mirror entry written by `libSaveChat`: `{ ...chat, contentType, fileName }`. -/
structure ChatMirror where
  chat : ChatSession
  contentType : String
  fileName : String
deriving DecidableEq

/-- Mirror entry written by `libSaveFile`: `{ ...file }`. -/
structure FileMirror where
  file : UploadedFile
deriving DecidableEq

/-- One project record of the library projection:
`{ name, docs: {...}, chats: {...}, files: {...} }`. -/
structure Project where
  name : String
  docs : List (String × DocMirror)
  chats : List (String × ChatMirror)
  files : List (String × FileMirror)
deriving DecidableEq

/-- The library root persisted under the `ai_elearning_lib` key. -/
abbrev Lib := List (String × Project)

/-- The contents of `localStorage`, one optional field per storage key owned
by `StorageManager`. `none` means the key was never written. -/
structure Store where
  documents : Option (List Document)
  chats : Option (List ChatSession)
  uploadedFiles : Option (List UploadedFile)
  settings : Option Settings
  lib : Option Lib
deriving DecidableEq

/-- A `localStorage` with no keys written. -/
def emptyStore : Store :=
  { documents := none, chats := none, uploadedFiles := none,
    settings := none, lib := none }

/-- The `findIndex` / replace-or-push pattern shared by `saveDocument`,
`saveChatSession` and `saveUploadedFile`: `findIndex` locates the first
record matching `p`; a hit is overwritten in place (`arr[i] = x`), a miss
appends (`arr.push(x)`). -/
def upsertBy {α : Type} (p : α → Bool) (x : α) : List α → List α
  | [] => [x]
  | a :: as => if p a then x :: as else a :: upsertBy p x as

namespace StorageManager

/-- `getDocuments`: `localStorage.getItem` is `null` for a never-written key. -/
def getDocuments (s : Store) : Option (List Document) := s.documents

/-- `saveDocuments`: `localStorage.setItem` on the documents key (quota
failures are not modelled; the JS boolean result is then always `true`). -/
def saveDocuments (s : Store) (documents : List Document) : Store :=
  { s with documents := some documents }

/-- `getChats`. -/
def getChats (s : Store) : Option (List ChatSession) := s.chats

/-- `saveChats`. -/
def saveChats (s : Store) (chats : List ChatSession) : Store :=
  { s with chats := some chats }

/-- `getUploadedFiles`. -/
def getUploadedFiles (s : Store) : Option (List UploadedFile) := s.uploadedFiles

/-- `saveUploadedFiles`. -/
def saveUploadedFiles (s : Store) (files : List UploadedFile) : Store :=
  { s with uploadedFiles := some files }

/-- `getSettings`. -/
def getSettings (s : Store) : Option Settings := s.settings

/-- `saveSettings`. -/
def saveSettings (s : Store) (settings : Settings) : Store :=
  { s with settings := some settings }

/-- The default settings object seeded by `initializeStorage`. -/
def defaultSettings : Settings :=
  { theme := "light", language := "en", autoSave := true,
    exportFormat := "docx" }

/-- `initializeStorage`: each collection whose read is falsy (`null`; an
empty array or the settings object are truthy) is seeded. The lib key is
seeded with `{}` when `getItem` returns `null`. -/
def initializeStorage (s : Store) : Store :=
  let s := if (getDocuments s).isNone then saveDocuments s [] else s
  let s := if (getChats s).isNone then saveChats s [] else s
  let s := if (getUploadedFiles s).isNone then saveUploadedFiles s [] else s
  let s := if (getSettings s).isNone then saveSettings s defaultSettings else s
  if s.lib.isNone then { s with lib := some [] } else s

/-- `getLibRoot`: `{}` for a missing key. -/
def getLibRoot (s : Store) : Lib := s.lib.getD []

/-- `setLibRoot`. -/
def setLibRoot (s : Store) (root : Lib) : Store := { s with lib := some root }

/-- `ensureProject`: lazily creates `{ name: projectId, docs: {}, chats: {},
files: {} }`. -/
def ensureProject (root : Lib) (projectId : String) : Lib :=
  match objGet root projectId with
  | some _ => root
  | none =>
    root ++ [(projectId,
      { name := projectId, docs := [], chats := [], files := [] })]

/-- A character of the class `[a-z0-9-_]` under the regex `i` flag. -/
def allowedChar (c : Char) : Bool :=
  (Char.ofNat 97 ≤ c && c ≤ Char.ofNat 122) ||
  (Char.ofNat 65 ≤ c && c ≤ Char.ofNat 90) ||
  (Char.ofNat 48 ≤ c && c ≤ Char.ofNat 57) ||
  c = '-' || c = '_'

/-- `.replace(/[^a-z0-9-_]+/gi, "_")` on a character list: each maximal run
of characters outside the class becomes a single underscore; letter case is
preserved. The boolean tracks whether the previous character was inside such
a run. -/
def replaceRunsAux : Bool → List Char → List Char
  | _, [] => []
  | inRun, c :: cs =>
    if allowedChar c then c :: replaceRunsAux false cs
    else if inRun then replaceRunsAux true cs
    else '_' :: replaceRunsAux true cs

/-- `str.replace(/[^a-z0-9-_]+/gi, "_")`. -/
def replaceRuns (s : String) : String := String.mk (replaceRunsAux false s.data)

/-- `libSaveDoc(projectId, doc)`: ensures the project and writes the doc
mirror with `contentType: "markdown"` and
``fileName: `${(doc.title || "document").replace(/[^a-z0-9-_]+/gi, "_")}.md` ``. -/
def libSaveDoc (s : Store) (projectId : String) (doc : Document) : Store :=
  let root := ensureProject (getLibRoot s) projectId
  let mirror : DocMirror :=
    { doc := doc
      contentType := "markdown"
      fileName :=
        replaceRuns (if doc.title = "" then "document" else doc.title) ++ ".md" }
  setLibRoot s
    (objModify root projectId
      (fun p => { p with docs := objSet p.docs (jsKey doc.id) mirror }))

/-- `libDeleteDoc(projectId, docId)`: deletes and re-persists only when both
the project and the entry exist. -/
def libDeleteDoc (s : Store) (projectId : String) (docId : String) : Store :=
  let root := getLibRoot s
  match objGet root projectId with
  | none => s
  | some p =>
    match objGet p.docs docId with
    | none => s
    | some _ =>
      setLibRoot s
        (objModify root projectId (fun q => { q with docs := objDel q.docs docId }))

/-- `libSaveChat(projectId, chat)`: ensures the project and writes the chat
mirror with `contentType: "json"` and
``fileName: `${(chat.title || "chat").replace(/[^a-z0-9-_]+/gi, "_")}.json` ``. -/
def libSaveChat (s : Store) (projectId : String) (chat : ChatSession) : Store :=
  let root := ensureProject (getLibRoot s) projectId
  let mirror : ChatMirror :=
    { chat := chat
      contentType := "json"
      fileName :=
        replaceRuns (if chat.title = "" then "chat" else chat.title) ++ ".json" }
  setLibRoot s
    (objModify root projectId
      (fun p => { p with chats := objSet p.chats (jsKey chat.id) mirror }))

/-- `libDeleteChat(projectId, chatId)`. -/
def libDeleteChat (s : Store) (projectId : String) (chatId : String) : Store :=
  let root := getLibRoot s
  match objGet root projectId with
  | none => s
  | some p =>
    match objGet p.chats chatId with
    | none => s
    | some _ =>
      setLibRoot s
        (objModify root projectId (fun q => { q with chats := objDel q.chats chatId }))

/-- `getLibProject(projectId)`. -/
def getLibProject (s : Store) (projectId : String) : Option Project :=
  objGet (getLibRoot s) projectId

/-- `saveDocument(document, projectId = null)`: normalizes id and timestamps
(`id: document.id || generateId()`, `createdAt: document.createdAt || now`,
`updatedAt: now`), replaces the first record whose `id` equals
`document.id` with the spread-merge `{ ...old, ...normalized }` — which is
`normalized`, since `normalized` carries every modelled field — or pushes,
mirrors into the library when `projectId` is truthy, then persists. The
caller's `document` object itself is never given the generated id. -/
def saveDocument (s : Store) (document : Document) (projectId : Option String)
    (now : Nat) (freshId : String) : Store :=
  let documents := (getDocuments s).getD []
  let normalized : Document :=
    { document with
      id := some (strOr document.id freshId)
      createdAt := some (document.createdAt.getD now)
      updatedAt := some now }
  let documents := upsertBy (fun doc => doc.id == document.id) normalized documents
  let s :=
    match projectId with
    | some p => if p = "" then s else libSaveDoc s p normalized
    | none => s
  saveDocuments s documents

/-- `deleteDocument(id, projectId = null)`. -/
def deleteDocument (s : Store) (id : String) (projectId : Option String) : Store :=
  let documents := (getDocuments s).getD []
  let filteredDocuments := documents.filter (fun doc => ¬ doc.id == some id)
  let s := saveDocuments s filteredDocuments
  match projectId with
  | some p => if p = "" then s else libDeleteDoc s p id
  | none => s

/-- `saveChatSession(chatSession, projectId = null)`: normalizes like
`saveDocument`, replaces-or-pushes by `id`, and mirrors into the library
under `projectId || normalized.docId || null` when that is truthy. -/
def saveChatSession (s : Store) (chatSession : ChatSession)
    (projectId : Option String) (now : Nat) (freshId : String) : Store :=
  let chats := (getChats s).getD []
  let normalized : ChatSession :=
    { chatSession with
      id := some (strOr chatSession.id freshId)
      createdAt := some (chatSession.createdAt.getD now)
      updatedAt := now }
  let chats := upsertBy (fun chat => chat.id == chatSession.id) normalized chats
  let proj := strOrOpt projectId (strOrOpt normalized.docId none)
  let s :=
    match proj with
    | some p => libSaveChat s p normalized
    | none => s
  saveChats s chats

/-- `deleteChatSession(id, projectId = null)`: filters the id out of the
chats collection; the library mirror is touched only when a truthy
`projectId` is supplied. -/
def deleteChatSession (s : Store) (id : String) (projectId : Option String) :
    Store :=
  let chats := (getChats s).getD []
  let filteredChats := chats.filter (fun chat => ¬ chat.id == some id)
  let s := saveChats s filteredChats
  match projectId with
  | some p => if p = "" then s else libDeleteChat s p id
  | none => s

end StorageManager

/-- The `{id, title}` view of the document currently shown by the editor
(`window.documentEditor.getCurrentDocument()` returns the document object;
the session directory reads only its `id` and `title`). -/
structure DocRef where
  id : String
  title : String
deriving DecidableEq

/-- The per-tab state of the `ChatInterface` class: the active session, its
in-memory message list, the cached session list, and the id of the document
the chat is associated with. -/
structure ChatInterface where
  currentSession : Option ChatSession
  messages : List Message
  sessions : List ChatSession
  associatedDocId : Option String
deriving DecidableEq

namespace ChatInterface

/-- Head of `sessions.sort((a, b) => new Date(b.updatedAt) - new Date(a.updatedAt))`:
JS `Array.prototype.sort` is stable, so the head of the descending sort is
the first element attaining the maximal `updatedAt`. -/
def firstMax (s0 : ChatSession) (rest : List ChatSession) : ChatSession :=
  rest.foldl (fun best t => if best.updatedAt < t.updatedAt then t else best) s0

/-- The title given to a fresh session: the truncated document title, or
`New Chat` plus `toLocaleTimeString()` (passed in as `nowStr`). -/
def sessionTitle (doc : Option DocRef) (nowStr : String) : String :=
  match doc with
  | some d =>
    "Chat: " ++ d.title.take 30 ++ (if d.title.length > 30 then "..." else "")
  | none => "New Chat " ++ nowStr

/-- The welcome message content, depending on whether a document is shown. -/
def welcomeContent (doc : Option DocRef) : String :=
  match doc with
  | some d =>
    "Hello! I\x27m ready to help you understand \"" ++ d.title ++
      "\". Select any text in your document and ask me questions about it!"
  | none =>
    "Hello! I\x27m your AI learning assistant. Upload a document and select any text to ask me questions about it!"

/-- `saveChatSession()` (the `ChatInterface` method): when a current session
exists, stamps `messages`, `updatedAt` and
`docId = this.associatedDocId || this.currentSession.docId || null` on it,
persists it through `storageManager.saveChatSession`, and reloads the
session cache. -/
def saveChatSession (st : ChatInterface) (s : Store) (now : Nat)
    (freshId : String) : ChatInterface × Store :=
  match st.currentSession with
  | none => (st, s)
  | some cur =>
    let cur : ChatSession :=
      { cur with
        messages := st.messages
        updatedAt := now
        docId := strOrOpt st.associatedDocId (strOrOpt cur.docId none) }
    let s := StorageManager.saveChatSession s cur none now freshId
    ({ st with
        currentSession := some cur
        sessions := (StorageManager.getChats s).getD [] }, s)

/-- `createNewSession(forceNew = false)`: reuses the current session when it
is not forced and the in-memory message list holds at most the welcome
message; otherwise builds a fresh session bound to the displayed document
(falling back to `associatedDocId`), seeds it with the single welcome
message and persists it via `saveChatSession()`. `sid` and `mid` are the
`generateId()` / `generateMessageId()` results. -/
def createNewSession (st : ChatInterface) (s : Store) (forceNew : Bool)
    (doc : Option DocRef) (now : Nat) (sid mid : String) (nowStr : String) :
    ChatInterface × Store :=
  if !forceNew && st.currentSession.isSome && decide (st.messages.length ≤ 1) then
    (st, s)
  else
    let newSession : ChatSession :=
      { id := some sid
        title := sessionTitle doc nowStr
        docId :=
          match doc with
          | some d => some d.id
          | none => strOrOpt st.associatedDocId none
        messages := []
        createdAt := some now
        updatedAt := now }
    let welcomeMessage : Message :=
      { id := mid, type := "ai", content := welcomeContent doc, timestamp := now }
    let st := { st with currentSession := some newSession,
                        messages := [welcomeMessage] }
    saveChatSession st s now mid

/-- `loadChatSessions()`: reads all sessions; when none exist it falls back
to `createNewSession()`. Otherwise it selects the head of the descending
`updatedAt` sort, overridden — when a document is displayed — by the head of
the same sort restricted to the sessions whose `docId` equals that
document's id, whenever that restriction is non-empty. -/
def loadChatSessions (st : ChatInterface) (s : Store)
    (currentDoc : Option DocRef) (now : Nat) (sid mid : String)
    (nowStr : String) : ChatInterface × Store :=
  let sessions := (StorageManager.getChats s).getD []
  let st := { st with sessions := sessions }
  match sessions with
  | [] => createNewSession st s false currentDoc now sid mid nowStr
  | s0 :: rest =>
    let sessionToLoad := firstMax s0 rest
    let chosen :=
      match currentDoc with
      | some d =>
        match (s0 :: rest).filter (fun t => t.docId == some d.id) with
        | [] => sessionToLoad
        | d0 :: drest => firstMax d0 drest
      | none => sessionToLoad
    let st :=
      match currentDoc with
      | some d => { st with associatedDocId := some d.id }
      | none => st
    ({ st with currentSession := some chosen, messages := chosen.messages }, s)

/-- `switchSession(sessionId)`: a falsy id or an id matching no stored
session returns without any effect; otherwise the outgoing current session
is saved first, then the found session becomes current. -/
def switchSession (st : ChatInterface) (s : Store) (sessionId : String)
    (now : Nat) (freshId : String) : ChatInterface × Store :=
  if sessionId = "" then (st, s)
  else
    let sessions := (StorageManager.getChats s).getD []
    match sessions.find? (fun t => t.id == some sessionId) with
    | none => (st, s)
    | some found =>
      let r :=
        match st.currentSession with
        | some _ => saveChatSession st s now freshId
        | none => (st, s)
      ({ r.1 with
          currentSession := some found
          messages := found.messages
          associatedDocId := strOrOpt found.docId none }, r.2)

end ChatInterface

/-! Concrete entities used to instantiate the theorems below. -/

/-- A localStorage state right after first-run seeding. -/
def exInitStore : Store := StorageManager.initializeStorage emptyStore

/-- A sample user message. -/
def exMsg : Message :=
  { id := "m1", type := "user", content := "hi", timestamp := 1 }

/-- A sample unsaved follow-up message. -/
def exMsg2 : Message :=
  { id := "m2", type := "user", content := "tell me more", timestamp := 6 }

/-- A session bound to document `D1`, updated at time 5. -/
def exSessionA : ChatSession :=
  { id := some "A", title := "chat a", docId := some "D1",
    messages := [exMsg], createdAt := some 1, updatedAt := 5 }

/-- A session bound to document `D2`, updated strictly later (time 9). -/
def exSessionB : ChatSession :=
  { id := some "B", title := "chat b", docId := some "D2",
    messages := [], createdAt := some 2, updatedAt := 9 }

/-- A store holding the two sample sessions. -/
def exStore : Store := StorageManager.saveChats exInitStore [exSessionA, exSessionB]

/-- A fresh chat UI state. -/
def exState : ChatInterface :=
  { currentSession := none, messages := [], sessions := [],
    associatedDocId := none }

/-- The displayed document `D1`. -/
def exDocRef1 : DocRef := { id := "D1", title := "Doc One" }

/-- The displayed document `D3`, matching no stored session. -/
def exDocRef3 : DocRef := { id := "D3", title := "Doc Three" }

/-- A document object that carries no `id`. -/
def exDocNoId : Document :=
  { id := none, title := "T", content := "body", createdAt := none,
    updatedAt := none }

/-- A document object with an `id` but no `createdAt`. -/
def exDocIdOnly : Document :=
  { id := some "doc-1", title := "T", content := "body", createdAt := none,
    updatedAt := none }

/-- A document object with an `id` and a `createdAt`. -/
def exDocFull : Document :=
  { id := some "doc-1", title := "T", content := "body", createdAt := some 3,
    updatedAt := some 3 }

/-- The document of the library fileName example. -/
def exC4Doc : Document :=
  { id := some "doc-1", title := "Intro: Chapter 1!", content := "body",
    createdAt := some 1, updatedAt := some 1 }

/-- A chat session bound to document `D9`, used for the library-mirror
fallback grouping. -/
def exChatD9 : ChatSession :=
  { id := some "CH", title := "chat d9", docId := some "D9",
    messages := [exMsg], createdAt := some 1, updatedAt := 2 }

/-- The chat state whose current session `A` has an appended, unsaved
message. -/
def exStateUnsaved : ChatInterface :=
  { currentSession := some exSessionA, messages := [exMsg, exMsg2],
    sessions := [exSessionA, exSessionB], associatedDocId := none }

/-- A chat state whose current session still holds only one message. -/
def exStateWelcome : ChatInterface :=
  { currentSession := some exSessionA, messages := [exMsg],
    sessions := [exSessionA, exSessionB], associatedDocId := none }

/-! Helper lemmas about the embedded list and map operations. -/

theorem upsertBy_of_no_match {α : Type} (p : α → Bool) (x : α) (l : List α)
    (h : ∀ r ∈ l, p r = false) : upsertBy p x l = l ++ [x] := by
  induction l with
  | nil => rfl
  | cons a as ih =>
    have ha : p a = false := h a (List.mem_cons_self a as)
    simp only [upsertBy, ha, if_neg Bool.false_ne_true, List.cons_append,
      List.cons.injEq, true_and]
    exact ih (fun r hr => h r (List.mem_cons_of_mem a hr))

theorem mem_upsertBy_self {α : Type} (p : α → Bool) (x : α) (l : List α) :
    x ∈ upsertBy p x l := by
  induction l with
  | nil => exact List.mem_cons_self x []
  | cons a as ih =>
    simp only [upsertBy]
    by_cases h : p a
    · simp [h]
    · simp only [h, if_neg Bool.false_ne_true, List.mem_cons]
      exact Or.inr ih

theorem filter_upsertBy {α : Type} (p : α → Bool) (x : α) (l : List α)
    (hx : p x = true) (hcount : l.countP p ≤ 1) :
    (upsertBy p x l).filter p = [x] := by
  induction l with
  | nil => simp [upsertBy, hx]
  | cons a as ih =>
    simp only [upsertBy]
    by_cases h : p a
    · have has : as.countP p = 0 := by
        have := hcount
        simp only [List.countP_cons, h, if_true] at this
        omega
      have hnil : as.filter p = [] := by
        rw [List.filter_eq_nil_iff]
        intro r hr
        have := List.countP_eq_zero.mp has r hr
        simp [this]
      simp [h, hx, hnil]
    · have hcount' : as.countP p ≤ 1 := by
        have := hcount
        simp only [List.countP_cons, h, if_false] at this
        omega
      simp only [h, if_neg Bool.false_ne_true]
      rw [List.filter_cons, if_neg h]
      exact ih hcount'

theorem firstMax_cons (s0 t : ChatSession) (ts : List ChatSession) :
    ChatInterface.firstMax s0 (t :: ts) =
      ChatInterface.firstMax (if s0.updatedAt < t.updatedAt then t else s0) ts :=
  rfl

theorem firstMax_mem (s0 : ChatSession) (rest : List ChatSession) :
    ChatInterface.firstMax s0 rest ∈ s0 :: rest := by
  induction rest generalizing s0 with
  | nil => exact List.mem_cons_self s0 []
  | cons t ts ih =>
    rw [firstMax_cons]
    rcases List.mem_cons.mp (ih (if s0.updatedAt < t.updatedAt then t else s0)) with
      h | h
    · rw [h]
      by_cases hlt : s0.updatedAt < t.updatedAt
      · simp [hlt]
      · simp [hlt]
    · exact List.mem_cons_of_mem s0 (List.mem_cons_of_mem t h)

theorem firstMax_ge (s0 : ChatSession) (rest : List ChatSession) :
    ∀ t ∈ s0 :: rest,
      t.updatedAt ≤ (ChatInterface.firstMax s0 rest).updatedAt := by
  induction rest generalizing s0 with
  | nil =>
    intro t ht
    rcases List.mem_cons.mp ht with h | h
    · rw [h]; exact le_refl _
    · exact absurd h (List.not_mem_nil t)
  | cons u us ih =>
    intro t ht
    rw [firstMax_cons]
    have hbase :
        ∀ v : ChatSession, v = s0 ∨ v = u →
          v.updatedAt ≤ (if s0.updatedAt < u.updatedAt then u else s0).updatedAt := by
      intro v hv
      by_cases hlt : s0.updatedAt < u.updatedAt
      · rcases hv with h | h <;> rw [h] <;> simp [hlt, le_of_lt hlt]
      · rcases hv with h | h <;> rw [h] <;> simp [hlt]
        exact Nat.le_of_not_lt hlt
    have hstep :=
      ih (if s0.updatedAt < u.updatedAt then u else s0)
        (if s0.updatedAt < u.updatedAt then u else s0)
        (List.mem_cons_self _ us)
    rcases List.mem_cons.mp ht with h | h
    · exact le_trans (hbase t (Or.inl h)) hstep
    · rcases List.mem_cons.mp h with h' | h'
      · exact le_trans (hbase t (Or.inr h')) hstep
      · exact ih (if s0.updatedAt < u.updatedAt then u else s0) t
          (List.mem_cons_of_mem _ h')

theorem objGet_objSet_self {α : Type} (m : List (String × α)) (k : String)
    (v : α) : objGet (objSet m k v) k = some v := by
  induction m with
  | nil => simp [objSet, objGet]
  | cons e rest ih =>
    simp only [objSet]
    by_cases h : e.1 = k
    · simp [objGet, h]
    · simp only [if_neg h, objGet, List.find?_cons, decide_eq_false h]
      simpa [objGet] using ih

theorem objGet_objModify_self {α : Type} (m : List (String × α)) (k : String)
    (f : α → α) : objGet (objModify m k f) k = (objGet m k).map f := by
  induction m with
  | nil => simp [objModify, objGet]
  | cons e rest ih =>
    simp only [objModify, List.map_cons]
    by_cases h : e.1 = k
    · simp [objGet, List.find?_cons, h]
    · simp only [if_neg h, objGet, List.find?_cons, decide_eq_false h]
      simpa [objGet, objModify] using ih

theorem objGet_append_single_self {α : Type} (m : List (String × α))
    (k : String) (v : α) (h : objGet m k = none) :
    objGet (m ++ [(k, v)]) k = some v := by
  induction m with
  | nil => simp [objGet]
  | cons e rest ih =>
    by_cases he : e.1 = k
    · exfalso
      simp [objGet, List.find?_cons, he] at h
    · simp only [objGet, List.cons_append, List.find?_cons, decide_eq_false he] at h ⊢
      exact ih (by simpa [objGet] using h)

theorem getLibProject_ensureProject {α : Lib} (projectId : String) :
    ∃ q, objGet (StorageManager.ensureProject α projectId) projectId = some q := by
  unfold StorageManager.ensureProject
  cases h : objGet α projectId with
  | some q => exact ⟨q, h⟩
  | none => exact ⟨_, objGet_append_single_self α projectId _ h⟩

theorem string_data_append (a b : String) : (a ++ b).data = a.data ++ b.data := by
  cases a
  cases b
  rfl

theorem replaceRunsAux_allowed (b : Bool) (cs : List Char) :
    ∀ c ∈ StorageManager.replaceRunsAux b cs,
      StorageManager.allowedChar c = true := by
  induction cs generalizing b with
  | nil =>
    intro c hc
    exact absurd hc (List.not_mem_nil c)
  | cons a as ih =>
    intro c hc
    simp only [StorageManager.replaceRunsAux] at hc
    by_cases ha : StorageManager.allowedChar a
    · rw [if_pos ha] at hc
      rcases List.mem_cons.mp hc with h | h
      · rw [h]; exact ha
      · exact ih false c h
    · rw [if_neg ha] at hc
      cases b with
      | true =>
        rw [if_pos rfl] at hc
        exact ih true c hc
      | false =>
        rw [if_neg (by simp)] at hc
        rcases List.mem_cons.mp hc with h | h
        · rw [h]; decide
        · exact ih true c h

theorem replaceRuns_allowed (t : String) :
    ∀ c ∈ (StorageManager.replaceRuns t).data,
      StorageManager.allowedChar c = true :=
  replaceRunsAux_allowed false t.data

/-! Claim theorems. -/

/-- C7: for the list collections (documents, chats, uploaded files), the
read-all operation returns `none` (JS `null`) on a never-initialized store,
and returns the empty list — a distinguishable value — once
`initializeStorage` has seeded the store with zero entities. -/
theorem getAll_uninitialized_vs_seeded :
    StorageManager.getDocuments emptyStore = none ∧
    StorageManager.getChats emptyStore = none ∧
    StorageManager.getUploadedFiles emptyStore = none ∧
    StorageManager.getDocuments (StorageManager.initializeStorage emptyStore) =
      some [] ∧
    StorageManager.getChats (StorageManager.initializeStorage emptyStore) =
      some [] ∧
    StorageManager.getUploadedFiles
      (StorageManager.initializeStorage emptyStore) = some [] ∧
    StorageManager.getDocuments emptyStore ≠
      StorageManager.getDocuments (StorageManager.initializeStorage emptyStore) := by
  refine ⟨rfl, rfl, rfl, rfl, rfl, rfl, ?_⟩
  decide

/-- C8: `switchSession` with an id matching no stored session returns
without modifying the chat state (current session, in-memory messages,
session cache, associated doc) or the store. -/
theorem switchSession_unknown_id_noop
    (st : ChatInterface) (s : Store) (sessionId : String) (now : Nat)
    (freshId : String)
    (hmiss : ∀ c ∈ (StorageManager.getChats s).getD [],
        ¬ c.id = some sessionId) :
    st.switchSession s sessionId now freshId = (st, s) := by
  unfold ChatInterface.switchSession
  by_cases hid : sessionId = ""
  · rw [if_pos hid]
  · rw [if_neg hid]
    have hfind : ((StorageManager.getChats s).getD []).find?
        (fun t => t.id == some sessionId) = none := by
      rw [List.find?_eq_none]
      intro c hc
      simp [hmiss c hc]
    simp only [hfind]

/-- C8 witness: switching to the unknown id `"missing"` leaves the example
state and store untouched. -/
theorem switchSession_unknown_id_noop_witness :
    exState.switchSession exStore "missing" 3 "f" = (exState, exStore) :=
  switchSession_unknown_id_noop exState exStore "missing" 3 "f" (by decide)

/-- C9: `saveDocument` never writes the generated id back into the caller's
document object, so saving an id-less document twice appends two distinct
records with the two distinct generated ids instead of upserting one. -/
theorem saveDocument_without_id_duplicates
    (s : Store) (document : Document) (now1 now2 : Nat) (f1 f2 : String)
    (hid : document.id = none) (hf : f1 ≠ f2)
    (hstored : ∀ r ∈ (StorageManager.getDocuments s).getD [], r.id ≠ none) :
    ∃ r1 r2 : Document,
      StorageManager.getDocuments
          (StorageManager.saveDocument
            (StorageManager.saveDocument s document none now1 f1)
            document none now2 f2) =
        some ((StorageManager.getDocuments s).getD [] ++ [r1, r2]) ∧
      r1.id = some f1 ∧ r2.id = some f2 ∧ r1.id ≠ r2.id := by
  unfold StorageManager.saveDocument
  simp only [hid, StorageManager.getDocuments, StorageManager.saveDocuments,
    Option.getD_some, strOr]
  have hpred : ∀ r ∈ (s.documents).getD [],
      (r.id == (none : Option String)) = false := by
    intro r hr
    exact beq_eq_false_iff_ne.mpr (hstored r hr)
  rw [upsertBy_of_no_match _ _ _ hpred]
  rw [upsertBy_of_no_match _ _ _ (by
    intro r hr
    rcases List.mem_append.mp hr with h | h
    · exact hpred r h
    · rcases List.mem_cons.mp h with h' | h'
      · subst h'; rfl
      · exact absurd h' (List.not_mem_nil r))]
  rw [List.append_assoc]
  refine ⟨_, _, rfl, rfl, rfl, ?_⟩
  simp [hf]

/-- C9 witness: saving the id-less example document twice into a seeded
store appends two records with ids `"f1"` and `"f2"`. -/
theorem saveDocument_without_id_duplicates_witness :
    ∃ r1 r2 : Document,
      StorageManager.getDocuments
          (StorageManager.saveDocument
            (StorageManager.saveDocument exInitStore exDocNoId none 10 "f1")
            exDocNoId none 11 "f2") =
        some ((StorageManager.getDocuments exInitStore).getD [] ++ [r1, r2]) ∧
      r1.id = some "f1" ∧ r2.id = some "f2" ∧ r1.id ≠ r2.id :=
  saveDocument_without_id_duplicates exInitStore exDocNoId 10 11 "f1" "f2"
    rfl (by decide) (by decide)

/-- C10: deleting a chat session without a `projectId` leaves the library
projection untouched in general; in particular a chat that was mirrored
under its `docId` (the fallback grouping key) is still exposed by the
mirror after the chat itself has been removed from the chats collection. -/
theorem deleteChatSession_keeps_library_mirror
    (s : Store) (chat : ChatSession) (cid d : String) (now : Nat) (f : String)
    (hcid : chat.id = some cid) (hcne : cid ≠ "")
    (hdoc : chat.docId = some d) (hdne : d ≠ "") :
    (∀ (s' : Store) (i : String),
        (StorageManager.deleteChatSession s' i none).lib = s'.lib) ∧
    ((StorageManager.deleteChatSession
        (StorageManager.saveChatSession s chat none now f) cid none).lib =
      (StorageManager.saveChatSession s chat none now f).lib ∧
     (∃ p : Project,
        StorageManager.getLibProject
            (StorageManager.deleteChatSession
              (StorageManager.saveChatSession s chat none now f) cid none) d =
          some p ∧
        (objGet p.chats cid).isSome = true) ∧
     ∀ c ∈ (StorageManager.getChats
        (StorageManager.deleteChatSession
          (StorageManager.saveChatSession s chat none now f) cid none)).getD [],
       ¬ c.id = some cid) := by
  have hframe : ∀ (s' : Store) (i : String),
      (StorageManager.deleteChatSession s' i none).lib = s'.lib := by
    intro s' i
    rfl
  refine ⟨hframe, hframe _ _, ?_, ?_⟩
  · -- the mirror entry written by the save survives the delete
    unfold StorageManager.getLibProject StorageManager.getLibRoot
    rw [hframe]
    unfold StorageManager.saveChatSession
    simp only [hcid, hdoc, strOrOpt, if_neg hdne, if_neg hcne,
      StorageManager.saveChats, StorageManager.libSaveChat,
      StorageManager.setLibRoot, StorageManager.getLibRoot, Option.getD_some]
    obtain ⟨q, hq⟩ := getLibProject_ensureProject (α := s.lib.getD []) d
    rw [objGet_objModify_self, hq]
    refine ⟨_, rfl, ?_⟩
    simp only [jsKey, strOr, if_neg hcne, Option.getD_some]
    rw [objGet_objSet_self]
    rfl
  · -- the chat itself is gone from the chats collection
    intro c hc
    unfold StorageManager.deleteChatSession StorageManager.getChats
      StorageManager.saveChats at hc
    simp only [Option.getD_some] at hc
    have hpc := List.of_mem_filter hc
    simp only [decide_eq_true_eq, beq_iff_eq] at hpc
    exact hpc

/-- C10 witness: the example chat bound to document `D9`, saved without a
projectId and then deleted without one, stays in the library mirror under
project `D9` while vanishing from the chats collection. -/
theorem deleteChatSession_keeps_library_mirror_witness :
    (∀ (s' : Store) (i : String),
        (StorageManager.deleteChatSession s' i none).lib = s'.lib) ∧
    ((StorageManager.deleteChatSession
        (StorageManager.saveChatSession exInitStore exChatD9 none 50 "x1")
        "CH" none).lib =
      (StorageManager.saveChatSession exInitStore exChatD9 none 50 "x1").lib ∧
     (∃ p : Project,
        StorageManager.getLibProject
            (StorageManager.deleteChatSession
              (StorageManager.saveChatSession exInitStore exChatD9 none 50 "x1")
              "CH" none) "D9" =
          some p ∧
        (objGet p.chats "CH").isSome = true) ∧
     ∀ c ∈ (StorageManager.getChats
        (StorageManager.deleteChatSession
          (StorageManager.saveChatSession exInitStore exChatD9 none 50 "x1")
          "CH" none)).getD [],
       ¬ c.id = some "CH") :=
  deleteChatSession_keeps_library_mirror exInitStore exChatD9 "CH" "D9" 50 "x1"
    rfl (by decide) rfl (by decide)

/-- C1: when some stored session is bound to the currently displayed
document, `loadChatSessions` makes current a session bound to that
document whose `updatedAt` is maximal among the document's sessions —
sessions of other documents may be arbitrarily newer. -/
theorem loadChatSessions_prefers_displayed_doc
    (st : ChatInterface) (s : Store) (d : DocRef) (now : Nat)
    (sid mid nowStr : String) (sessions : List ChatSession)
    (hs : StorageManager.getChats s = some sessions)
    (hmatch : ∃ t ∈ sessions, t.docId = some d.id) :
    ∃ chosen : ChatSession,
      (st.loadChatSessions s (some d) now sid mid nowStr).1.currentSession =
        some chosen ∧
      chosen ∈ sessions ∧ chosen.docId = some d.id ∧
      ∀ t ∈ sessions, t.docId = some d.id → t.updatedAt ≤ chosen.updatedAt := by
  obtain ⟨t0, ht0mem, ht0doc⟩ := hmatch
  unfold ChatInterface.loadChatSessions
  rw [hs]
  simp only [Option.getD_some]
  cases sessions with
  | nil => exact absurd ht0mem (List.not_mem_nil t0)
  | cons s0 rest =>
    dsimp only
    have ht0f : t0 ∈ (s0 :: rest).filter (fun t => t.docId == some d.id) :=
      List.mem_filter.mpr ⟨ht0mem, by simp [ht0doc]⟩
    cases hd : (s0 :: rest).filter (fun t => t.docId == some d.id) with
    | nil => rw [hd] at ht0f; exact absurd ht0f (List.not_mem_nil t0)
    | cons d0 drest =>
      dsimp only
      refine ⟨ChatInterface.firstMax d0 drest, rfl, ?_, ?_, ?_⟩
      · have := firstMax_mem d0 drest
        rw [← hd] at this
        exact List.mem_of_mem_filter this
      · have := firstMax_mem d0 drest
        rw [← hd] at this
        have := List.of_mem_filter this
        simpa [beq_iff_eq] using this
      · intro t htmem htdoc
        have htf : t ∈ (s0 :: rest).filter (fun t => t.docId == some d.id) :=
          List.mem_filter.mpr ⟨htmem, by simp [htdoc]⟩
        rw [hd] at htf
        exact firstMax_ge d0 drest t htf

/-- C1 witness: with sessions A (docId D1, updatedAt 5) and B (docId D2,
updatedAt 9) and D1 displayed, A is selected although B is strictly newer. -/
theorem loadChatSessions_prefers_displayed_doc_witness :
    ∃ chosen : ChatSession,
      (exState.loadChatSessions exStore (some exDocRef1) 20 "sid" "mid"
        "12:00").1.currentSession = some chosen ∧
      chosen ∈ [exSessionA, exSessionB] ∧ chosen.docId = some exDocRef1.id ∧
      ∀ t ∈ [exSessionA, exSessionB],
        t.docId = some exDocRef1.id → t.updatedAt ≤ chosen.updatedAt :=
  loadChatSessions_prefers_displayed_doc exState exStore exDocRef1 20 "sid"
    "mid" "12:00" [exSessionA, exSessionB] rfl
    ⟨exSessionA, List.mem_cons_self _ _, rfl⟩

/-- C2: when sessions exist but none is bound to the displayed document
(or no document is displayed), `loadChatSessions` makes current a session
whose `updatedAt` is maximal across all stored sessions. -/
theorem loadChatSessions_fallback_most_recent
    (st : ChatInterface) (s : Store) (currentDoc : Option DocRef) (now : Nat)
    (sid mid nowStr : String) (sessions : List ChatSession)
    (hs : StorageManager.getChats s = some sessions)
    (hne : sessions ≠ [])
    (hnomatch : ∀ d : DocRef, currentDoc = some d →
        ∀ t ∈ sessions, ¬ t.docId = some d.id) :
    ∃ chosen : ChatSession,
      (st.loadChatSessions s currentDoc now sid mid nowStr).1.currentSession =
        some chosen ∧
      chosen ∈ sessions ∧
      ∀ t ∈ sessions, t.updatedAt ≤ chosen.updatedAt := by
  unfold ChatInterface.loadChatSessions
  rw [hs]
  simp only [Option.getD_some]
  cases sessions with
  | nil => exact absurd rfl hne
  | cons s0 rest =>
    dsimp only
    cases currentDoc with
    | none =>
      exact ⟨ChatInterface.firstMax s0 rest, rfl, firstMax_mem s0 rest,
        firstMax_ge s0 rest⟩
    | some d =>
      dsimp only
      have hnil : (s0 :: rest).filter (fun t => t.docId == some d.id) = [] := by
        rw [List.filter_eq_nil_iff]
        intro t ht
        simpa [beq_iff_eq] using hnomatch d rfl t ht
      rw [hnil]
      exact ⟨ChatInterface.firstMax s0 rest, rfl, firstMax_mem s0 rest,
        firstMax_ge s0 rest⟩

/-- C2 witness: with only sessions for D1 and D2 stored and D3 displayed,
the globally newest session B is selected. -/
theorem loadChatSessions_fallback_most_recent_witness :
    ∃ chosen : ChatSession,
      (exState.loadChatSessions exStore (some exDocRef3) 20 "sid" "mid"
        "12:00").1.currentSession = some chosen ∧
      chosen ∈ [exSessionA, exSessionB] ∧
      ∀ t ∈ [exSessionA, exSessionB], t.updatedAt ≤ chosen.updatedAt :=
  loadChatSessions_fallback_most_recent exState exStore (some exDocRef3) 20
    "sid" "mid" "12:00" [exSessionA, exSessionB] rfl (by decide) (by decide)

/-- C3 fails as stated ("for every document object"): the id-less example
document saved twice on a seeded store yields two records instead of one,
and a document with an id but no `createdAt` gets its stored `createdAt`
restamped from 10 to 11 by the second save. -/
theorem saveDocument_twice_claim_counterexample :
    (((StorageManager.getDocuments
        (StorageManager.saveDocument
          (StorageManager.saveDocument exInitStore exDocNoId none 10 "f1")
          exDocNoId none 11 "f2")).getD []).length = 2) ∧
    ((StorageManager.getDocuments
        (StorageManager.saveDocument exInitStore exDocIdOnly none 10
          "g1")).getD []).map Document.createdAt = [some 10] ∧
    ((StorageManager.getDocuments
        (StorageManager.saveDocument
          (StorageManager.saveDocument exInitStore exDocIdOnly none 10 "g1")
          exDocIdOnly none 11 "g2")).getD []).map Document.createdAt =
      [some 11] := by
  decide

/-- C3 (amended): for a document object that already carries an id and a
`createdAt`, saved into a store holding at most one record with that id,
two consecutive saves leave exactly one stored record for that id, its
`createdAt` unchanged by the second save and its `updatedAt` non-decreasing
across the two saves. -/
theorem saveDocument_twice_upsert_amended
    (s : Store) (document : Document) (i : String) (c now1 now2 : Nat)
    (f1 f2 : String)
    (hi : document.id = some i) (hine : i ≠ "")
    (hc : document.createdAt = some c)
    (hcount : ((StorageManager.getDocuments s).getD []).countP
        (fun r => r.id == some i) ≤ 1)
    (ht : now1 ≤ now2) :
    ∃ r1 r2 : Document,
      ((StorageManager.getDocuments
          (StorageManager.saveDocument s document none now1 f1)).getD
          []).filter (fun r => r.id == some i) = [r1] ∧
      ((StorageManager.getDocuments
          (StorageManager.saveDocument
            (StorageManager.saveDocument s document none now1 f1)
            document none now2 f2)).getD []).filter
          (fun r => r.id == some i) = [r2] ∧
      r2.createdAt = r1.createdAt ∧
      r1.updatedAt = some now1 ∧ r2.updatedAt = some now2 ∧ now1 ≤ now2 := by
  unfold StorageManager.saveDocument
  simp only [hi, hc, StorageManager.getDocuments, StorageManager.saveDocuments,
    Option.getD_some, strOr, if_neg hine]
  simp only [StorageManager.getDocuments] at hcount
  have hcount2 : ∀ (l : List Document) (x : Document),
      l.filter (fun r => r.id == some i) = [x] →
      l.countP (fun r => r.id == some i) ≤ 1 := by
    intro l x hfil
    rw [List.countP_eq_length_filter, hfil]
    exact le_refl 1
  rw [filter_upsertBy _ _ _ (by simp) hcount,
    filter_upsertBy _ _ _ (by simp)
      (hcount2 _ _ (filter_upsertBy _ _ _ (by simp) hcount))]
  exact ⟨_, _, rfl, rfl, rfl, rfl, rfl, ht⟩

/-- C3 witness: the example document with id `"doc-1"` and `createdAt 3`,
saved twice at times 10 and 11 into a seeded store. -/
theorem saveDocument_twice_upsert_amended_witness :
    ∃ r1 r2 : Document,
      ((StorageManager.getDocuments
          (StorageManager.saveDocument exInitStore exDocFull none 10
            "k1")).getD []).filter (fun r => r.id == some "doc-1") = [r1] ∧
      ((StorageManager.getDocuments
          (StorageManager.saveDocument
            (StorageManager.saveDocument exInitStore exDocFull none 10 "k1")
            exDocFull none 11 "k2")).getD []).filter
          (fun r => r.id == some "doc-1") = [r2] ∧
      r2.createdAt = r1.createdAt ∧
      r1.updatedAt = some 10 ∧ r2.updatedAt = some 11 ∧ 10 ≤ 11 :=
  saveDocument_twice_upsert_amended exInitStore exDocFull "doc-1" 3 10 11
    "k1" "k2" rfl (by decide) rfl (by decide) (by decide)

/-- C4 fails as stated: the regex `/[^a-z0-9-_]+/gi` collapses each run of
disallowed characters into a single underscore and preserves letter case,
so the mirrored fileName for title `"Intro: Chapter 1!"` is
`"Intro_Chapter_1_.md"`, not the claimed `"intro_chapter_1_.md"`. -/
theorem libSaveDoc_fileName_counterexample :
    ((StorageManager.getLibProject
        (StorageManager.saveDocument exInitStore exC4Doc (some "proj1") 10
          "h1") "proj1").map
      (fun proj => (objGet proj.docs "doc-1").map DocMirror.fileName)) =
      some (some "Intro_Chapter_1_.md") ∧
    ((StorageManager.getLibProject
        (StorageManager.saveDocument exInitStore exC4Doc (some "proj1") 10
          "h1") "proj1").map
      (fun proj => (objGet proj.docs "doc-1").map DocMirror.fileName)) ≠
      some (some "intro_chapter_1_.md") := by
  constructor
  · decide
  · decide

/-- C4 (amended): after saving a document with an id under a projectId, the
library mirror holds an entry for that id under that project whose
`fileName` is derived deterministically from the title: letter case
preserved, each maximal run of characters outside `[a-z0-9-_]`
(case-insensitive) replaced by a single `"_"` (empty titles fall back to
`"document"`), and `".md"` appended — so every character of the sanitized
name is in the class, and title `"Intro: Chapter 1!"` yields
`"Intro_Chapter_1_.md"`. -/
theorem libSaveDoc_fileName_amended
    (s : Store) (document : Document) (i p : String) (now : Nat) (f : String)
    (hi : document.id = some i) (hine : i ≠ "") (hp : p ≠ "") :
    ∃ (proj : Project) (m : DocMirror),
      StorageManager.getLibProject
          (StorageManager.saveDocument s document (some p) now f) p =
        some proj ∧
      objGet proj.docs i = some m ∧
      m.fileName =
        StorageManager.replaceRuns
          (if document.title = "" then "document" else document.title) ++
          ".md" ∧
      (∀ ch ∈ m.fileName.data,
        StorageManager.allowedChar ch = true ∨ ch = '.') ∧
      StorageManager.replaceRuns "Intro: Chapter 1!" ++ ".md" =
        "Intro_Chapter_1_.md" := by
  unfold StorageManager.saveDocument
  simp only [hi, strOr, if_neg hine, if_neg hp,
    StorageManager.getLibProject, StorageManager.getLibRoot,
    StorageManager.saveDocuments, StorageManager.libSaveDoc,
    StorageManager.setLibRoot, Option.getD_some]
  obtain ⟨q, hq⟩ := getLibProject_ensureProject (α := s.lib.getD []) p
  rw [objGet_objModify_self, hq]
  refine ⟨_,
    ⟨⟨some i, document.title, document.content,
        some (document.createdAt.getD now), some now⟩, "markdown",
      StorageManager.replaceRuns
        (if document.title = "" then "document" else document.title) ++ ".md"⟩,
    rfl, ?_, rfl, ?_, by decide⟩
  · simp only [jsKey, Option.getD_some]
    exact objGet_objSet_self _ _ _
  · intro ch hch
    rw [string_data_append] at hch
    rcases List.mem_append.mp hch with h | h
    · exact Or.inl (replaceRuns_allowed _ ch h)
    · have hmd : (".md" : String).data = ['.', 'm', 'd'] := rfl
      rw [hmd] at h
      rcases List.mem_cons.mp h with h' | h'
      · exact Or.inr h'
      · rcases List.mem_cons.mp h' with h'' | h''
        · rw [h'']; exact Or.inl (by decide)
        · rcases List.mem_cons.mp h'' with h3 | h3
          · rw [h3]; exact Or.inl (by decide)
          · exact absurd h3 (List.not_mem_nil ch)

/-- C4 witness: the example document titled `"Intro: Chapter 1!"` saved
under project `"proj1"`. -/
theorem libSaveDoc_fileName_amended_witness :
    ∃ (proj : Project) (m : DocMirror),
      StorageManager.getLibProject
          (StorageManager.saveDocument exInitStore exC4Doc (some "proj1") 10
            "h1") "proj1" = some proj ∧
      objGet proj.docs "doc-1" = some m ∧
      m.fileName =
        StorageManager.replaceRuns
          (if exC4Doc.title = "" then "document" else exC4Doc.title) ++
          ".md" ∧
      (∀ ch ∈ m.fileName.data,
        StorageManager.allowedChar ch = true ∨ ch = '.') ∧
      StorageManager.replaceRuns "Intro: Chapter 1!" ++ ".md" =
        "Intro_Chapter_1_.md" :=
  libSaveDoc_fileName_amended exInitStore exC4Doc "doc-1" "proj1" 10 "h1"
    rfl (by decide) (by decide)

/-- C5: switching away from a current session A (whose in-memory message
list may contain appended, never-explicitly-saved messages) to a stored
session B first persists A — the stored record under A's id afterwards
carries exactly the in-memory message list — and then makes B current. -/
theorem switchSession_persists_outgoing
    (st : ChatInterface) (s : Store) (A B : ChatSession) (aid bid : String)
    (now : Nat) (f : String)
    (hcur : st.currentSession = some A)
    (haid : A.id = some aid) (hane : aid ≠ "")
    (hbid : B.id = some bid) (hbne : bid ≠ "") (_hab : aid ≠ bid)
    (hBmem : B ∈ (StorageManager.getChats s).getD []) :
    (∃ rec ∈ (StorageManager.getChats
        (st.switchSession s bid now f).2).getD [],
      rec.id = some aid ∧ rec.messages = st.messages) ∧
    (∃ B' : ChatSession,
      (st.switchSession s bid now f).1.currentSession = some B' ∧
      B'.id = some bid) := by
  unfold ChatInterface.switchSession
  rw [if_neg hbne]
  dsimp only
  obtain ⟨found, hfind⟩ : ∃ found,
      ((StorageManager.getChats s).getD []).find?
        (fun t => t.id == some bid) = some found := by
    cases hf : ((StorageManager.getChats s).getD []).find?
        (fun t => t.id == some bid) with
    | none =>
      exfalso
      have := List.find?_eq_none.mp hf B hBmem
      simp [hbid] at this
    | some x => exact ⟨x, rfl⟩
  have hfid : found.id = some bid := by
    have := List.find?_some hfind
    simpa [beq_iff_eq] using this
  rw [hfind, hcur]
  dsimp only
  unfold ChatInterface.saveChatSession
  rw [hcur]
  dsimp only
  unfold StorageManager.saveChatSession
  simp only [haid, strOr, if_neg hane, StorageManager.getChats,
    StorageManager.saveChats, Option.getD_some]
  exact ⟨⟨_, mem_upsertBy_self _ _ _, rfl, rfl⟩, ⟨found, rfl, hfid⟩⟩

/-- C5 witness: state with current session A (id `"A"`) holding an appended
unsaved message, switched to stored session B (id `"B"`). -/
theorem switchSession_persists_outgoing_witness :
    (∃ rec ∈ (StorageManager.getChats
        (exStateUnsaved.switchSession exStore "B" 30 "fr").2).getD [],
      rec.id = some "A" ∧ rec.messages = exStateUnsaved.messages) ∧
    (∃ B' : ChatSession,
      (exStateUnsaved.switchSession exStore "B" 30 "fr").1.currentSession =
        some B' ∧
      B'.id = some "B") :=
  switchSession_persists_outgoing exStateUnsaved exStore exSessionA exSessionB
    "A" "B" 30 "fr" rfl rfl (by decide) rfl (by decide) (by decide) (by decide)

/-- C6: `createNewSession false` leaves state and store untouched whenever a
current session exists and the in-memory list holds at most one message;
`createNewSession true` always makes current a fresh session with the given
generated id, seeded with exactly one welcome message of type `"ai"`, and
immediately appends its persisted record to the chats collection. -/
theorem createNewSession_reuse_and_force
    (st : ChatInterface) (s : Store) (doc : Option DocRef) (now : Nat)
    (sid mid nowStr : String)
    (hsid : sid ≠ "")
    (hfresh : ∀ c ∈ (StorageManager.getChats s).getD [], ¬ c.id = some sid) :
    (st.currentSession.isSome = true → st.messages.length ≤ 1 →
      st.createNewSession s false doc now sid mid nowStr = (st, s)) ∧
    (∃ (ns : ChatSession) (w : Message),
      (st.createNewSession s true doc now sid mid nowStr).1.currentSession =
        some ns ∧
      ns.id = some sid ∧ ns.messages = [w] ∧ w.type = "ai" ∧
      StorageManager.getChats
          (st.createNewSession s true doc now sid mid nowStr).2 =
        some ((StorageManager.getChats s).getD [] ++ [ns])) := by
  constructor
  · intro h1 h2
    unfold ChatInterface.createNewSession
    rw [if_pos (by simp [h1, h2])]
  · unfold ChatInterface.createNewSession
    rw [if_neg (by simp)]
    dsimp only
    unfold ChatInterface.saveChatSession
    dsimp only
    unfold StorageManager.saveChatSession
    simp only [strOr, if_neg hsid, StorageManager.getChats,
      StorageManager.saveChats, Option.getD_some]
    rw [upsertBy_of_no_match _ _ _ (by
      intro c hc
      exact beq_eq_false_iff_ne.mpr (by
        simpa [StorageManager.getChats] using hfresh c
          (by simpa [StorageManager.getChats] using hc)))]
    exact ⟨_, _, rfl, rfl, rfl, rfl, rfl⟩

/-- C6 witness: state whose current session holds only the welcome message;
`false` reuses it, `true` creates and persists session `"NS"`. -/
theorem createNewSession_reuse_and_force_witness :
    (exStateWelcome.currentSession.isSome = true →
      exStateWelcome.messages.length ≤ 1 →
      exStateWelcome.createNewSession exStore false none 40 "NS" "NM" "t" =
        (exStateWelcome, exStore)) ∧
    (∃ (ns : ChatSession) (w : Message),
      (exStateWelcome.createNewSession exStore true none 40 "NS" "NM"
        "t").1.currentSession = some ns ∧
      ns.id = some "NS" ∧ ns.messages = [w] ∧ w.type = "ai" ∧
      StorageManager.getChats
          (exStateWelcome.createNewSession exStore true none 40 "NS" "NM"
            "t").2 =
        some ((StorageManager.getChats exStore).getD [] ++ [ns])) :=
  createNewSession_reuse_and_force exStateWelcome exStore none 40 "NS" "NM"
    "t" (by decide) (by decide)

end AILearn
